import Mathlib

/-!
Verification of the preprocessing pipeline in `src/preprocess/dataset.py`
(class `DatasetVoiceBank`).  The Python code is shallowly embedded: pure
string and list manipulations are translated to Lean functions; external
collaborators (librosa audio loading, numpy array operations, the feature
extractor from `src/utils` and `feature_extractor.py`, which are not part
of the repository snapshot under `src/`) are abstracted as fields of an
`Externals` record; file-system state is passed explicitly as the list of
record filenames already present; Python floats are modelled as exact
rationals.
-/

set_option maxRecDepth 100000

/-- Configuration object (the `args` record read by `DatasetVoiceBank`).
Fields are exactly the options the source reads: `sample_rate`,
`hop_length`, `win_length`, `top_db`, `segment`, `split`, `normalize`,
`segment_normalization`, `fft`, `center`, `save_path`. -/
structure Args where
  sample_rate : Nat
  hop_length : Nat
  win_length : Nat
  top_db : Nat
  segment : Rat
  split : Rat
  normalize : String
  segment_normalization : Bool
  fft : Bool
  center : Bool
  save_path : String
deriving DecidableEq, Repr

/-- Chunking loop of `create_tf_record` (dataset.py lines 185-195, 361-363):
`start = 0; step = 100; end = 100`, then `for istep in range(len(l) // step)`:
the last iteration (`istep == len(l) // step - 1`) takes `l[start:]`, every
other iteration takes `l[start:end]`; `start` and `end` advance by 100 per
iteration, so at iteration `istep` we have `start = istep * 100`. -/
def chunkList (l : List α) : List (List α) :=
  (List.range (l.length / 100)).map (fun istep =>
    if istep = l.length / 100 - 1 then l.drop (istep * 100)
    else (l.drop (istep * 100)).take 100)

theorem chunkList_length (l : List α) : (chunkList l).length = l.length / 100 := by
  simp [chunkList]

theorem chunkList_getD_of_lt (l : List α) (i : Nat) (h : i < l.length / 100) :
    (chunkList l).getD i [] =
      (if i = l.length / 100 - 1 then l.drop (i * 100)
       else (l.drop (i * 100)).take 100) := by
  have h1 : i < (List.range (l.length / 100)).length := by simpa using h
  rw [chunkList, List.getD_eq_getElem _ _ (by simpa using h)]
  simp

theorem chunkList_getD_len_of_mid (l : List α) (i : Nat) (h : i + 1 < l.length / 100) :
    ((chunkList l).getD i []).length = 100 := by
  rw [chunkList_getD_of_lt _ _ (by omega)]
  rw [if_neg (by omega)]
  simp only [List.length_take, List.length_drop]
  omega

theorem chunkList_getD_len_last (l : List α) (h : 1 ≤ l.length / 100) :
    ((chunkList l).getD (l.length / 100 - 1) []).length = 100 + l.length % 100 := by
  rw [chunkList_getD_of_lt _ _ (by omega)]
  rw [if_pos rfl]
  simp only [List.length_drop]
  omega

theorem chunkList_eq_nil (l : List α) (h : l.length < 100) : chunkList l = [] := by
  have h0 : l.length / 100 = 0 := Nat.div_eq_of_lt h
  simp [chunkList, h0]

/-- C1: counterexample.  For a 250-element input list the chunking loop of
`create_tf_record` runs `250 // 100 = 2` iterations, not 3: it produces the
chunks `l[0:100]` and `l[100:]`, of sizes 100 and 150.  So the claimed chunk
sizes (100, 100, 50) are wrong and the peak number of in-memory results is
150, which exceeds the claimed bound of 100. -/
theorem C1_counterexample :
    (chunkList (List.range 250)).map List.length = [100, 150] ∧
    (chunkList (List.range 250)).length ≠ 3 ∧
    ¬ (∀ c ∈ chunkList (List.range 250), c.length ≤ 100) := by
  refine ⟨by decide, by decide, ?_⟩
  intro hall
  have h150 := hall (List.drop 100 (List.range 250)) (by decide)
  simp at h150

/-- C1 (amended): for an input pair list of N = 250 pairs and chunk size 100,
`create_tf_record` processes exactly 2 chunks, of sizes 100 and 150, and the
number of in-memory results held at any point (one chunk is fully
materialized before its records are written, then discarded) never exceeds
150. -/
theorem C1_chunking_amended (l : List α) (h : l.length = 250) :
    (chunkList l).map List.length = [100, 150] ∧
    ∀ c ∈ chunkList l, c.length ≤ 150 := by
  have hl : chunkList l = [l.take 100, l.drop 100] := by
    simp only [chunkList, h]
    rw [show (250 : Nat) / 100 = 2 from rfl, show List.range 2 = [0, 1] from rfl]
    simp
  have hmap : (chunkList l).map List.length = [100, 150] := by
    rw [hl]
    simp [List.length_take, List.length_drop, h]
  refine ⟨hmap, ?_⟩
  intro c hc
  rw [hl] at hc
  simp only [List.mem_cons, List.not_mem_nil, or_false] at hc
  rcases hc with hc | hc
  · rw [hc]; simp [List.length_take, h]
  · rw [hc]; simp [List.length_drop, h]

/-- C1: witness for the amended theorem at the concrete list
`List.range 250`. -/
theorem C1_witness :
    (chunkList (List.range 250)).map List.length = [100, 150] ∧
    ∀ c ∈ chunkList (List.range 250), c.length ≤ 150 :=
  C1_chunking_amended (List.range 250) (by simp)

/-- Python `int(q)`: truncation toward zero.  `Int.div` truncates toward
zero, matching CPython `int()` on a numeric value. -/
def pyInt (q : Rat) : Int := Int.tdiv q.num (Int.ofNat q.den)

/-- Decimal digits of the fractional part `q` (with `0 ≤ q < 1`), with
enough fuel for any double-precision value printed by Python. -/
def fracDigits : Nat → Rat → List Nat
  | 0, _ => []
  | fuel + 1, q =>
    if q = 0 then []
    else
      let d := pyInt (q * 10)
      d.toNat :: fracDigits fuel (q * 10 - (d : Rat))

/-- Python `str(x)` for a nonnegative float, modelled on exact rationals:
integer part, a dot, and the fractional digits (`"2.0"` when the value is
integral, as Python prints floats). -/
def pyFloatStrNN (q : Rat) : String :=
  let ip := pyInt q
  let ds := fracDigits 17 (q - (ip : Rat))
  toString ip ++ "." ++ (if ds.isEmpty then "0" else String.join (ds.map toString))

/-- Python `str(x)` for a float modelled as an exact rational. -/
def pyFloatStr (q : Rat) : String :=
  if q < 0 then "-" ++ pyFloatStrNN (-q) else pyFloatStrNN q

/-- Python `str(b)` for a bool interpolated into an f-string. -/
def pyBool (b : Bool) : String := if b then "True" else "False"

/-- Python `s.replace(".", "-")` for a single-character pattern: map every
dot of the string to a dash. -/
def replaceDotDash (s : String) : String :=
  ⟨s.data.map (fun c => if c = '.' then '-' else c)⟩

/-- Output directory name computed by `create_tf_record` (dataset.py lines
161-164): an f-string under `save_path` interpolating `segment` (with `.`
replaced by `-`), `int(split*100)`, `normalize`, `segment_normalization`,
`fft` and `top_db`, plus a `_debug` suffix in debug mode.  Note that
`sample_rate`, `hop_length`, `win_length` and `center` do not appear. -/
def folderName (args : Args) (debug : Bool) : String :=
  let base := args.save_path ++ "/records_seg_" ++ replaceDotDash (pyFloatStr args.segment)
    ++ "_train_" ++ toString (pyInt (args.split * 100))
    ++ "_norm_" ++ args.normalize
    ++ "_segNorm_" ++ pyBool args.segment_normalization
    ++ "_fft_" ++ pyBool args.fft
    ++ "_topdB_" ++ toString args.top_db
  if debug then base ++ "_debug" else base

/-- The configuration used by the concrete witnesses: fft off, 2.0-second
segments at 16 kHz, 90/10 split, peak normalization. -/
def args0 : Args :=
  { sample_rate := 16000
    hop_length := 256
    win_length := 512
    top_db := 20
    segment := 2
    split := 9 / 10
    normalize := "peak"
    segment_normalization := false
    fft := false
    center := true
    save_path := "out" }

/-- Same configuration as `args0` except for the sample rate. -/
def args8k : Args := { args0 with sample_rate := 8000 }

example : folderName args0 false =
    "out/records_seg_2-0_train_90_norm_peak_segNorm_False_fft_False_topdB_20" := by
  with_unfolding_all rfl

/-- C6: counterexample.  Two configurations that differ in the recognized
option `sample_rate` (16 kHz versus 8 kHz, everything else identical)
produce the same output directory name, because the f-string building the
directory name only interpolates `segment`, `split`, `normalize`,
`segment_normalization`, `fft` and `top_db`; `sample_rate`, `hop_length`,
`win_length` and `center` are not encoded. -/
theorem C6_counterexample :
    folderName args0 false = folderName args8k false ∧
    args0.sample_rate ≠ args8k.sample_rate := by
  constructor
  · with_unfolding_all rfl
  · with_unfolding_all decide

/-- C6 (amended): the output directory name computed by `create_tf_record`
is a function of `save_path`, `segment`, `split`, `normalize`,
`segment_normalization`, `fft` and `top_db` alone; two configurations that
agree on those seven options receive the same directory name even when they
differ in `sample_rate`, `hop_length`, `win_length` or `center`, so the
directory name does not encode every recognized option. -/
theorem C6_folder_encoding_amended (a b : Args) (debug : Bool)
    (h1 : a.save_path = b.save_path) (h2 : a.segment = b.segment)
    (h3 : a.split = b.split) (h4 : a.normalize = b.normalize)
    (h5 : a.segment_normalization = b.segment_normalization)
    (h6 : a.fft = b.fft) (h7 : a.top_db = b.top_db) :
    folderName a debug = folderName b debug := by
  simp only [folderName, h1, h2, h3, h4, h5, h6, h7]

/-- C6: witness, applying the amended theorem to `args0` and `args8k`,
which agree on the seven encoded options but differ in sample rate. -/
theorem C6_witness : folderName args0 true = folderName args8k true :=
  C6_folder_encoding_amended args0 args8k true rfl rfl rfl rfl rfl rfl rfl

/-- Python errors that `audio_process` can raise before producing a result:
a failed `assert` (with its message) and an `IndexError` from indexing a
too-short `split(".")` list. -/
inductive PyError where
  | assertionError (msg : String)
  | indexError
deriving DecidableEq, Repr

/-- Result payload of `audio_process` (the tuple after the synthesized
name): in waveform mode the pair `(noisy_audio, clean_audio)`; in fft mode
the 8-tuple `(noisy_magnitude, clean_magnitude, noisy_phase, clean_phase,
noisy_real, clean_real, noisy_imag, clean_imag)`, in source order. -/
inductive Payload (α : Type) where
  | wav (noisy clean : α)
  | fft (noisyMag cleanMag noisyPhase cleanPhase noisyReal cleanReal noisyImag cleanImag : α)
deriving DecidableEq, Repr

/-- External collaborators of `dataset.py` that are not part of the
repository snapshot under `src/` (they are imported from `src.utils` and
`feature_extractor.py`): audio loading, normalization, segmentation, the
STFT feature extractor, and the numpy array operations used on its output.
The carrier `α` stands for numpy arrays.  `read_audio` returns the loaded
waveform together with the sample rate; `stft` bundles
`FeatureExtractor(...)` + `get_stft_spectrogram(center)`; `axis0` is the
length of the leading axis (what `zip` iterates over); `transposeLast2`
is `np.transpose` with the last two axes swapped, as built by
`create_tf_record`. -/
structure Externals (α : Type) where
  read_audio : String → Nat → α × Nat
  encode_normalize : α → String → α
  segment_audio : α → Nat → Rat → α
  stft : α → Nat → Nat → Nat → Bool → α
  angle : α → α
  absA : α → α
  re : α → α
  im : α → α
  transposeLast2 : α → α
  axis0 : α → Nat

/-- Python `str.split(sep)` for a one-character separator, on the character
list of the string: split at every occurrence of `sep`, keeping empty
pieces, so the result is always nonempty (`"".split(sep) == [""]`). -/
def splitChars (sep : Char) : List Char → List (List Char)
  | [] => [[]]
  | c :: rest =>
    let r := splitChars sep rest
    if c = sep then [] :: r
    else
      match r with
      | [] => [[c]]
      | g :: gs => (c :: g) :: gs

/-- Python `s.split(sep)` for a one-character separator (the source only
splits on `"/"` and `"."`). -/
def pySplit (sep : Char) (s : String) : List String :=
  (splitChars sep s.data).map (fun cs => ⟨cs⟩)

/-- Python `filename.split("/")[-1]`: the final path component.  The split
list is never empty, so `[-1]` is its last element. -/
def basename (s : String) : String := (pySplit '/' s).getLastD ""

/-- The part of the basename before the first dot (the claim language
"base filename ignoring directory and extension"). -/
def stemOf (s : String) : String := (pySplit '.' (basename s)).getD 0 ""

/-- Body of `audio_process` after both asserts pass (dataset.py lines
77-158): load both files, normalize before or after segmentation according
to `segment_normalization`, and either return the waveform pair or run the
STFT feature extraction and return the 8-tuple. -/
def process_payload (E : Externals α) (args : Args) (cleanFile noisyFile : String) : Payload α :=
  let clean0 := (E.read_audio cleanFile args.sample_rate).1
  let noisy0 := (E.read_audio noisyFile args.sample_rate).1
  let clean1 := if args.segment_normalization then clean0
    else E.encode_normalize clean0 args.normalize
  let noisy1 := if args.segment_normalization then noisy0
    else E.encode_normalize noisy0 args.normalize
  let clean2 := E.segment_audio clean1 args.sample_rate args.segment
  let noisy2 := E.segment_audio noisy1 args.sample_rate args.segment
  let clean3 := if args.segment_normalization then E.encode_normalize clean2 args.normalize
    else clean2
  let noisy3 := if args.segment_normalization then E.encode_normalize noisy2 args.normalize
    else noisy2
  if args.fft then
    let noisySpec := E.stft noisy3 args.win_length args.hop_length args.sample_rate args.center
    let cleanSpec := E.stft clean3 args.win_length args.hop_length args.sample_rate args.center
    Payload.fft (E.absA noisySpec) (E.absA cleanSpec) (E.angle noisySpec) (E.angle cleanSpec)
      (E.re noisySpec) (E.re cleanSpec) (E.im noisySpec) (E.im cleanSpec)
  else
    Payload.wav noisy3 clean3

/-- The `audio_process` method (dataset.py lines 65-158).  The result pairs
the Python return value (or the error raised) with the list of files passed
to `read_audio`, in call order, so that "fails before any audio is read"
is expressible.  Steps, in source order: assert that the clean and noisy
basenames are equal (including extension); synthesize the record key from
the first two dot-separated components of the basename (an `IndexError`
if there is no dot); only then read the two audio files and process them. -/
def audio_process (E : Externals α) (args : Args) (pr : String × String) :
    Except PyError (String × Payload α) × List String :=
  if basename pr.1 = basename pr.2 then
    if 2 ≤ (pySplit '.' (basename pr.1)).length then
      (Except.ok
        ((pySplit '.' (basename pr.1)).getD 0 "" ++ "_" ++ (pySplit '.' (basename pr.1)).getD 1 "",
          process_payload E args pr.1 pr.2),
        [pr.1, pr.2])
    else (Except.error PyError.indexError, [])
  else (Except.error (PyError.assertionError "filename must match."), [])

example : basename "a/x1.wav" = "x1.wav" := by decide
example : stemOf "a/x1.wav" = "x1" := by decide



/-- Record filename built by `create_tf_record` (dataset.py lines 320-322
and 350-352): an f-string interpolating the output folder, the run prefix,
the synthesized pair name and the running segment index, with extension
`.tfrecords`. -/
def recordFilename (folder pfx name : String) (i : Nat) : String :=
  folder ++ "/" ++ pfx ++ "_" ++ name ++ "_" ++ toString i ++ ".tfrecords"

/-- Number of segments written for one processed pair: in waveform mode the
code enumerates `zip(noisy_audio, clean_audio)`; in fft mode it enumerates
the zip of the four transposed real/imag tensors.  `zip` over numpy arrays
iterates the shortest leading axis. -/
def segCount (E : Externals α) : Payload α → Nat
  | Payload.wav noisy clean => min (E.axis0 noisy) (E.axis0 clean)
  | Payload.fft _ _ _ _ nr cr ni ci =>
    min (min (E.axis0 (E.transposeLast2 nr)) (E.axis0 (E.transposeLast2 cr)))
      (min (E.axis0 (E.transposeLast2 ni)) (E.axis0 (E.transposeLast2 ci)))

/-- The record filenames that one pair attempts to write, in segment order,
or the error that `audio_process` raises for it. -/
def pairFilenames (E : Externals α) (args : Args) (folder pfx : String)
    (pr : String × String) : Except PyError (List String) :=
  match (audio_process E args pr).1 with
  | Except.error e => Except.error e
  | Except.ok (name, p) =>
    Except.ok ((List.range (segCount E p)).map (recordFilename folder pfx name))

/-- The skip-if-exists writer loop (dataset.py lines 320-331 and 350-359):
for each filename in order, when the file already exists, skip; otherwise
write it.  The state is the list of files present; the second component is
the list of files actually written, in order. -/
def writeFiles : List String → List String → List String × List String
  | fs, [] => (fs, [])
  | fs, fn :: rest =>
    if fn ∈ fs then writeFiles fs rest
    else
      let r := writeFiles (fn :: fs) rest
      (r.1, fn :: r.2)

/-- Pair-by-pair driver of `create_tf_record`: process each pair (aborting
the whole run on the first raised error, as an uncaught Python exception
would) and feed its record filenames to the skip-if-exists writer. -/
def runPairs (E : Externals α) (args : Args) (folder pfx : String) :
    List (String × String) → List String → Except PyError (List String × List String)
  | [], fs => Except.ok (fs, [])
  | pr :: rest, fs =>
    match pairFilenames E args folder pfx pr with
    | Except.error e => Except.error e
    | Except.ok ns =>
      let w := writeFiles fs ns
      match runPairs E args folder pfx rest w.1 with
      | Except.error e => Except.error e
      | Except.ok res => Except.ok (res.1, w.2 ++ res.2)

/-- The `create_tf_record` method (dataset.py lines 160-363) as a transform
of the output-directory state: compute the folder name, zip the clean and
noisy path lists into the pair list (truncated to 100 pairs in debug mode),
cut it into the chunks the loop iterates, and run the pairs of those chunks
in order against the set of already-present files.  Pairs outside every
chunk are never processed.  Returns the final file list and all filenames
written, or the first error raised. -/
def create_tf_record (E : Externals α) (args : Args) ( pfx : String) (debug : Bool)
    (clean_filenames noisy_filenames : List String) (fs : List String) :
    Except PyError (List String × List String) :=
  let folder := folderName args debug
  let cl := if debug then clean_filenames.take 100 else clean_filenames
  let ny := if debug then noisy_filenames.take 100 else noisy_filenames
  runPairs E args folder pfx ((chunkList (cl.zip ny)).flatten) fs

/-- Trivial instantiation of the external collaborators, used by the
concrete witnesses: every waveform is the unit value and every array has
leading axis 1 (one segment per pair). -/
def unitExt : Externals Unit where
  read_audio := fun _ _ => ((), 16000)
  encode_normalize := fun a _ => a
  segment_audio := fun a _ _ => a
  stft := fun a _ _ _ _ => a
  angle := fun a => a
  absA := fun a => a
  re := fun a => a
  im := fun a => a
  transposeLast2 := fun a => a
  axis0 := fun _ => 1

/-- C3: for every pair that `audio_process` accepts (returns a result for),
the clean and noisy base filenames ignoring directory and extension match;
and whenever those stems differ, the method raises the
`"filename must match."` assertion with an empty read trace, that is,
before any audio file is read.  The assert in the source compares the full
basenames (extension included), which is strictly stronger than the stem
comparison, so both directions of the claim hold. -/
theorem C3_filename_precondition {α : Type} (E : Externals α) (args : Args)
    (c n : String) :
    (∀ name p tr, audio_process E args (c, n) = (Except.ok (name, p), tr) →
      stemOf c = stemOf n) ∧
    (stemOf c ≠ stemOf n →
      audio_process E args (c, n) =
        (Except.error (PyError.assertionError "filename must match."), [])) := by
  constructor
  · intro name p tr h
    by_cases hb : basename c = basename n
    · simp [stemOf, hb]
    · simp [audio_process, hb] at h
  · intro hs
    have hb : basename c ≠ basename n := by
      intro hbe
      exact hs (by simp [stemOf, hbe])
    simp [audio_process, hb]

/-- C3: witness.  The mismatched pair `("a/x1.wav", "b/x2.wav")` raises the
assertion with an empty read trace, and the matching pair
`("a/x1.wav", "b/x1.wav")` is accepted with equal stems. -/
theorem C3_witness :
    audio_process unitExt args0 ("a/x1.wav", "b/x2.wav") =
      (Except.error (PyError.assertionError "filename must match."), []) ∧
    stemOf "a/x1.wav" = stemOf "b/x1.wav" := by
  constructor
  · exact (C3_filename_precondition unitExt args0 "a/x1.wav" "b/x2.wav").2 (by decide)
  · exact (C3_filename_precondition unitExt args0 "a/x1.wav" "b/x1.wav").1
      ("x1_wav") (process_payload unitExt args0 "a/x1.wav" "b/x1.wav")
      ["a/x1.wav", "b/x1.wav"] (by with_unfolding_all rfl)

/-- C10: for a pair whose shared basename has at least two dot-separated
components, `audio_process` synthesizes the record key by joining the first
two components with an underscore (basename `x1.wav` gives key `x1_wav`),
and the records of that pair are therefore named
`folder/{prefix}_{stem}_{extension}_{segment_index}.tfrecords`; when the
basename contains no dot, the key computation raises an out-of-range
`IndexError` with an empty read trace, before any audio is read. -/
theorem C10_record_key {α : Type} (E : Externals α) (args : Args) (c n : String)
    (hb : basename c = basename n) :
    (2 ≤ (pySplit '.' (basename c)).length →
      audio_process E args (c, n) =
        (Except.ok
          ((pySplit '.' (basename c)).getD 0 "" ++ "_" ++ (pySplit '.' (basename c)).getD 1 "",
            process_payload E args c n),
          [c, n])) ∧
    ((pySplit '.' (basename c)).length < 2 →
      audio_process E args (c, n) = (Except.error PyError.indexError, [])) ∧
    (∀ folder pfx, 2 ≤ (pySplit '.' (basename c)).length →
      pairFilenames E args folder pfx (c, n) =
        Except.ok ((List.range (segCount E (process_payload E args c n))).map
          (recordFilename folder pfx
            ((pySplit '.' (basename c)).getD 0 "" ++ "_" ++
              (pySplit '.' (basename c)).getD 1 "")))) := by
  have key : 2 ≤ (pySplit '.' (basename c)).length →
      audio_process E args (c, n) =
        (Except.ok
          ((pySplit '.' (basename c)).getD 0 "" ++ "_" ++ (pySplit '.' (basename c)).getD 1 "",
            process_payload E args c n),
          [c, n]) := by
    intro h2
    simp only [audio_process]
    rw [if_pos (show basename (c, n).1 = basename (c, n).2 from hb)]
    rw [if_pos (show 2 ≤ (pySplit '.' (basename (c, n).1)).length from h2)]
  refine ⟨key, ?_, ?_⟩
  · intro h2
    simp only [audio_process]
    rw [if_pos (show basename (c, n).1 = basename (c, n).2 from hb)]
    rw [if_neg (show ¬ 2 ≤ (pySplit '.' (basename (c, n).1)).length from by
      exact fun hle => absurd (show 2 ≤ (pySplit '.' (basename c)).length from hle) (by omega))]
  · intro folder pfx h2
    simp [pairFilenames, key h2]

/-- C10: witness.  The pair `("a/x1.wav", "b/x1.wav")` yields the key
`x1_wav` and the single record filename `out/train_x1_wav_0.tfrecords`
(with folder `out`, run prefix `train`), so records are named
`{prefix}_{stem}_{extension}_{index}.tfrecords`; the dotless pair
`("a/x1", "b/x1")` raises `IndexError` before any read. -/
theorem C10_witness :
    audio_process unitExt args0 ("a/x1.wav", "b/x1.wav") =
      (Except.ok ("x1_wav", process_payload unitExt args0 "a/x1.wav" "b/x1.wav"),
        ["a/x1.wav", "b/x1.wav"]) ∧
    audio_process unitExt args0 ("a/x1", "b/x1") = (Except.error PyError.indexError, []) ∧
    pairFilenames unitExt args0 "out" "train" ("a/x1.wav", "b/x1.wav") =
      Except.ok [recordFilename "out" "train" "x1_wav" 0] := by
  obtain ⟨k1, _, k3⟩ := C10_record_key unitExt args0 "a/x1.wav" "b/x1.wav" (by decide)
  obtain ⟨_, e2, _⟩ := C10_record_key unitExt args0 "a/x1" "b/x1" (by decide)
  exact ⟨k1 (by decide), e2 (by decide), k3 "out" "train" (by decide)⟩

/-- C2: counterexample.  With the 1-pair lists of the claimed scenario
(fft off, 2.0-second segments, 16 kHz, as in `args0`), `create_tf_record`
writes nothing at all: the pair list has length 1, the chunk loop runs
`1 // 100 = 0` iterations, so no pair is ever processed and no record file
is created — not the claimed single record `{prefix}_x1_0.<ext>` (which,
had the pair been processed, would in fact be named with key `x1_wav`,
compare `C10_witness`). -/
theorem C2_counterexample :
    create_tf_record unitExt args0 "train" false ["a/x1.wav"] ["b/x1.wav"] [] =
      Except.ok ([], []) ∧
    (Except.ok (([] : List String), ([] : List String)) :
        Except PyError (List String × List String)) ≠
      Except.ok ([recordFilename (folderName args0 false) "train" "x1" 0],
        [recordFilename (folderName args0 false) "train" "x1" 0]) := by
  constructor
  · rfl
  · simp [recordFilename]

/-- C2 (amended): with clean list `["a/x1.wav"]` and noisy list
`["b/x1.wav"]`, fft=false, segment=2.0 s, sample_rate=16000, a run of
`create_tf_record` processes zero chunks (the single pair falls outside
every chunk, because only `N // 100` chunks are iterated) and therefore
writes no record at all; it completes successfully leaving the output
directory unchanged, and a second identical run does the same. -/
theorem C2_single_pair_amended {α : Type} (E : Externals α) (args : Args)
    ( pfx : String) (fs : List String) (hfft : args.fft = false)
    (hseg : args.segment = 2) (hsr : args.sample_rate = 16000) :
    create_tf_record E args pfx false ["a/x1.wav"] ["b/x1.wav"] fs = Except.ok (fs, []) := by
  rfl

/-- C2: witness for the amended theorem at the trivial externals and the
scenario configuration. -/
theorem C2_witness :
    create_tf_record unitExt args0 "train" false ["a/x1.wav"] ["b/x1.wav"] [] =
      Except.ok ([], []) :=
  C2_single_pair_amended unitExt args0 "train" [] rfl rfl rfl

theorem writeFiles_mem_left : ∀ (ns fs : List String), ∀ x ∈ fs, x ∈ (writeFiles fs ns).1 := by
  intro ns
  induction ns with
  | nil => intro fs x hx; simpa [writeFiles] using hx
  | cons fn rest ih =>
    intro fs x hx
    by_cases hf : fn ∈ fs
    · simpa [writeFiles, hf] using ih fs x hx
    · simp only [writeFiles, if_neg hf]
      exact ih (fn :: fs) x (by simp [hx])

theorem writeFiles_mem_names : ∀ (ns fs : List String), ∀ x ∈ ns, x ∈ (writeFiles fs ns).1 := by
  intro ns
  induction ns with
  | nil => intro fs x hx; simp at hx
  | cons fn rest ih =>
    intro fs x hx
    by_cases hf : fn ∈ fs
    · rcases List.mem_cons.mp hx with rfl | hx2
      · simpa [writeFiles, hf] using writeFiles_mem_left rest fs x hf
      · simpa [writeFiles, hf] using ih fs x hx2
    · simp only [writeFiles, if_neg hf]
      rcases List.mem_cons.mp hx with rfl | hx2
      · exact writeFiles_mem_left rest (x :: fs) x (by simp)
      · exact ih (fn :: fs) x hx2

theorem writeFiles_skip : ∀ (ns fs : List String), (∀ n ∈ ns, n ∈ fs) →
    writeFiles fs ns = (fs, []) := by
  intro ns
  induction ns with
  | nil => intro fs _; rfl
  | cons fn rest ih =>
    intro fs h
    have hf : fn ∈ fs := h fn (by simp)
    simp only [writeFiles, if_pos hf]
    exact ih fs (fun n hn => h n (by simp [hn]))

theorem runPairs_subset {α : Type} (E : Externals α) (args : Args) (folder pfx : String) :
    ∀ (prs : List (String × String)) (fs fs' ws : List String),
      runPairs E args folder pfx prs fs = Except.ok (fs', ws) → ∀ x ∈ fs, x ∈ fs' := by
  intro prs
  induction prs with
  | nil =>
    intro fs fs' ws h x hx
    simp only [runPairs, Except.ok.injEq, Prod.mk.injEq] at h
    exact h.1 ▸ hx
  | cons pr rest ih =>
    intro fs fs' ws h x hx
    simp only [runPairs] at h
    cases hpf : pairFilenames E args folder pfx pr with
    | error e => rw [hpf] at h; simp at h
    | ok ns =>
      rw [hpf] at h
      simp only at h
      cases hrec : runPairs E args folder pfx rest (writeFiles fs ns).1 with
      | error e => rw [hrec] at h; simp at h
      | ok res =>
        rw [hrec] at h
        simp only [Except.ok.injEq, Prod.mk.injEq] at h
        exact h.1 ▸ ih (writeFiles fs ns).1 res.1 res.2 (by rw [hrec])
          x (writeFiles_mem_left ns fs x hx)

theorem runPairs_names {α : Type} (E : Externals α) (args : Args) (folder pfx : String) :
    ∀ (prs : List (String × String)) (fs fs' ws : List String),
      runPairs E args folder pfx prs fs = Except.ok (fs', ws) →
      ∀ pr ∈ prs, ∀ ns, pairFilenames E args folder pfx pr = Except.ok ns →
      ∀ x ∈ ns, x ∈ fs' := by
  intro prs
  induction prs with
  | nil => intro fs fs' ws _ pr hpr; simp at hpr
  | cons pr0 rest ih =>
    intro fs fs' ws h pr hpr ns hns x hxns
    simp only [runPairs] at h
    cases hpf : pairFilenames E args folder pfx pr0 with
    | error e => rw [hpf] at h; simp at h
    | ok ns0 =>
      rw [hpf] at h
      simp only at h
      cases hrec : runPairs E args folder pfx rest (writeFiles fs ns0).1 with
      | error e => rw [hrec] at h; simp at h
      | ok res =>
        rw [hrec] at h
        simp only [Except.ok.injEq, Prod.mk.injEq] at h
        rcases List.mem_cons.mp hpr with rfl | hmem
        · have hns0 : ns0 = ns := by
            injection hpf.symm.trans hns
          subst hns0
          exact h.1 ▸ runPairs_subset E args folder pfx rest (writeFiles fs ns0).1 res.1 res.2
            (by rw [hrec]) x (writeFiles_mem_names ns0 fs x hxns)
        · exact h.1 ▸ ih (writeFiles fs ns0).1 res.1 res.2 (by rw [hrec]) pr hmem ns hns x hxns

theorem runPairs_second_run {α : Type} (E : Externals α) (args : Args) (folder pfx : String) :
    ∀ (prs : List (String × String)) (fs fs' ws gs : List String),
      runPairs E args folder pfx prs fs = Except.ok (fs', ws) →
      (∀ pr ∈ prs, ∀ ns, pairFilenames E args folder pfx pr = Except.ok ns →
        ∀ x ∈ ns, x ∈ gs) →
      runPairs E args folder pfx prs gs = Except.ok (gs, []) := by
  intro prs
  induction prs with
  | nil => intro fs fs' ws gs _ _; rfl
  | cons pr0 rest ih =>
    intro fs fs' ws gs h hg
    simp only [runPairs] at h ⊢
    cases hpf : pairFilenames E args folder pfx pr0 with
    | error e => rw [hpf] at h; simp at h
    | ok ns0 =>
      rw [hpf] at h
      simp only at h
      cases hrec : runPairs E args folder pfx rest (writeFiles fs ns0).1 with
      | error e => rw [hrec] at h; simp at h
      | ok res =>
        have hskip : writeFiles gs ns0 = (gs, []) :=
          writeFiles_skip ns0 gs (hg pr0 (by simp) ns0 hpf)
        have hrest : runPairs E args folder pfx rest gs = Except.ok (gs, []) :=
          ih (writeFiles fs ns0).1 res.1 res.2 gs (by rw [hrec])
            (fun pr hpr ns hns x hx => hg pr (by simp [hpr]) ns hns x hx)
        simp [hskip, hrest]

/-- C4: running `create_tf_record` twice over the same input lists and the
same output directory is idempotent.  If the first run completes with file
state `fs2` after performing writes `ws`, then the second run over `fs2`
completes successfully, performs no write at all (every filename it
computes already exists and is skipped by the `os.path.isfile` check), and
leaves the file state exactly `fs2`. -/
theorem C4_idempotent {α : Type} (E : Externals α) (args : Args) ( pfx : String)
    (debug : Bool) (clean_filenames noisy_filenames : List String)
    (fs fs2 ws : List String)
    (h : create_tf_record E args pfx debug clean_filenames noisy_filenames fs =
      Except.ok (fs2, ws)) :
    create_tf_record E args pfx debug clean_filenames noisy_filenames fs2 =
      Except.ok (fs2, []) := by
  unfold create_tf_record at h ⊢
  exact runPairs_second_run E args (folderName args debug) pfx _ fs fs2 ws fs2 h
    (runPairs_names E args (folderName args debug) pfx _ fs fs2 ws h)

/-- C4: witness.  A first run over one hundred copies of the pair
`("a/x.wav", "b/x.wav")` starting from an empty output directory writes the
single record `train_x_wav_0.tfrecords` (evaluated concretely); applying
the idempotence theorem to that run shows the second run returns the same
file state and performs no write. -/
theorem C4_witness :
    create_tf_record unitExt args0 "train" false (List.replicate 100 "a/x.wav")
        (List.replicate 100 "b/x.wav")
        [recordFilename (folderName args0 false) "train" "x_wav" 0] =
      Except.ok ([recordFilename (folderName args0 false) "train" "x_wav" 0], []) :=
  C4_idempotent unitExt args0 "train" false (List.replicate 100 "a/x.wav")
    (List.replicate 100 "b/x.wav") []
    [recordFilename (folderName args0 false) "train" "x_wav" 0]
    [recordFilename (folderName args0 false) "train" "x_wav" 0]
    (by with_unfolding_all rfl)

/-- C9: the chunking used by `create_tf_record` for a non-debug pair list
of length N iterates exactly `N / 100` chunks; every chunk but the last
holds 100 pairs, the last holds `100 + N % 100` pairs (it absorbs the
remainder); and when `N < 100` there is no chunk at all, so the run
processes no pair and writes nothing, returning the file state unchanged. -/
theorem C9_chunk_structure {α : Type} (E : Externals α) (args : Args) ( pfx : String)
    (fs : List String) (clean_filenames noisy_filenames : List String) :
    (chunkList (clean_filenames.zip noisy_filenames)).length =
      (clean_filenames.zip noisy_filenames).length / 100 ∧
    (∀ i, i + 1 < (clean_filenames.zip noisy_filenames).length / 100 →
      ((chunkList (clean_filenames.zip noisy_filenames)).getD i []).length = 100) ∧
    (1 ≤ (clean_filenames.zip noisy_filenames).length / 100 →
      ((chunkList (clean_filenames.zip noisy_filenames)).getD
        ((clean_filenames.zip noisy_filenames).length / 100 - 1) []).length =
        100 + (clean_filenames.zip noisy_filenames).length % 100) ∧
    ((clean_filenames.zip noisy_filenames).length < 100 →
      chunkList (clean_filenames.zip noisy_filenames) = [] ∧
      create_tf_record E args pfx false clean_filenames noisy_filenames fs =
        Except.ok (fs, [])) := by
  refine ⟨chunkList_length _, fun i hi => chunkList_getD_len_of_mid _ i hi,
    fun h => chunkList_getD_len_last _ h, fun h => ⟨chunkList_eq_nil _ h, ?_⟩⟩
  have h0 : chunkList (clean_filenames.zip noisy_filenames) = [] := chunkList_eq_nil _ h
  unfold create_tf_record
  simp [h0, runPairs]

/-- C9: witness.  For 250 replicated pairs the first chunk has 100 pairs
and the last has 150; for a 1-pair list the run returns immediately with
no write. -/
theorem C9_witness :
    ((chunkList ((List.replicate 250 "a/x.wav").zip
      (List.replicate 250 "b/x.wav"))).getD 0 []).length = 100 ∧
    ((chunkList ((List.replicate 250 "a/x.wav").zip
      (List.replicate 250 "b/x.wav"))).getD 1 []).length = 150 ∧
    create_tf_record unitExt args0 "train" false ["a/x.wav"] ["b/x.wav"] [] =
      Except.ok ([], []) := by
  obtain ⟨-, h2, h3, -⟩ := C9_chunk_structure unitExt args0 "train" []
    (List.replicate 250 "a/x.wav") (List.replicate 250 "b/x.wav")
  obtain ⟨-, -, -, h4⟩ := C9_chunk_structure unitExt args0 "train" []
    ["a/x.wav"] ["b/x.wav"]
  refine ⟨?_, ?_, (h4 (by simp)).2⟩
  · exact h2 0 (by simp [List.length_zip])
  · have h3' := h3 (by simp [List.length_zip])
    simpa [List.length_zip] using h3'

/-- Axis permutation built by `create_tf_record` in fft mode (dataset.py
lines 245-246): `new_axes = np.arange(ndim); new_axes[-2:] = new_axes[-1],
new_axes[-2]`, that is, the identity permutation with its last two entries
swapped.  `swapLast2` is that in-place swap on a list (identity on lists
shorter than two, where numpy would reject the slice assignment). -/
def swapLast2 (l : List α) : List α :=
  match l.reverse with
  | b :: a :: rest => (a :: b :: rest).reverse
  | _ => l

/-- The `new_axes` array of dataset.py lines 245-246. -/
def new_axes (n : Nat) : List Nat := swapLast2 (List.range n)

/-- Action of `np.transpose(arr, axes)` on the axis labels (equally, the
shape) of an array: output axis `i` carries input axis `axes[i]`. -/
def applyAxes (ls : List α) (ax : List Nat) (d : α) : List α :=
  ax.map (fun i => ls.getD i d)

theorem swapLast2_append2 (xs : List α) (a b : α) :
    swapLast2 (xs ++ [a, b]) = xs ++ [b, a] := by
  simp [swapLast2, List.reverse_append]

theorem getD_range_map (l suf : List α) (d : α) :
    (List.range l.length).map (fun i => (l ++ suf).getD i d) = l := by
  induction l with
  | nil => simp
  | cons a tl ih =>
    simp only [List.length_cons, List.range_succ_eq_map, List.map_cons, List.map_map,
      Function.comp_def, List.cons_append, List.getD_cons_zero, List.getD_cons_succ]
    exact congrArg (List.cons a) ih

/-- C5: counterexample.  The transpose applied before writing swaps the
last two axes of each real/imag tensor.  For an input tensor laid out as
`(segment, frequency, frame)` — frequency on the second-to-last axis, as
the STFT library produces — the written tensor is laid out as
`(segment, frame, frequency)`: the frame axis ends up second-to-last and
the frequency axis last, the opposite of the claimed layout (and matching
the source comment `segment, ch, frame, freqeuncy`).  Since the transpose
is a fixed swap, no single claimed output layout can hold regardless of
the input orientation. -/
theorem C5_counterexample :
    applyAxes ["segment", "frequency", "frame"] (new_axes 3) "" =
      ["segment", "frame", "frequency"] ∧
    (applyAxes ["segment", "frequency", "frame"] (new_axes 3) "").getD 1 "" ≠ "frequency" ∧
    (applyAxes ["segment", "frequency", "frame"] (new_axes 3) "").getD 2 "" ≠ "frame" := by
  refine ⟨by decide, by decide, by decide⟩

/-- C5 (amended): the transpose applied to every real/imag tensor before
writing swaps the last two axes: for input tensors whose axes end with
`(frequency, frame)` — the layout the STFT producer emits — every written
tensor's axes end with `(frame, frequency)`, that is, the frequency axis is
placed last, immediately after the frame axis. -/
theorem C5_axis_swap_amended (front : List String) :
    applyAxes (front ++ ["frequency", "frame"]) (new_axes (front.length + 2)) "" =
      front ++ ["frame", "frequency"] := by
  have hax : new_axes (front.length + 2) =
      List.range front.length ++ [front.length + 1, front.length] := by
    have hr : List.range (front.length + 2) =
        List.range front.length ++ [front.length, front.length + 1] := by
      rw [List.range_succ, List.range_succ]
      simp
    rw [new_axes, hr, swapLast2_append2]
  rw [hax]
  simp only [applyAxes, List.map_append, List.map_cons, List.map_nil]
  rw [getD_range_map front ["frequency", "frame"] ""]
  rw [List.getD_append_right front ["frequency", "frame"] "" (front.length + 1) (by omega)]
  rw [List.getD_append_right front ["frequency", "frame"] "" front.length (by omega)]
  simp

/-- One worker execution step of the process pool: executing task `i`
stores the (deterministic) result of `audio_process` on the i-th submitted
input into future `i`; `sched` is the order in which the pool happens to
execute tasks, which the source leaves unspecified. -/
def runTasks (f : α → β) (l : List α) : List Nat → (Nat → Option β) → Nat → Option β
  | [], s => s
  | i :: rest, s => runTasks f l rest (fun j => if j = i then (l.get? i).map f else s j)

/-- Result collection of the parallel branch (dataset.py lines 197-208):
`pendings` holds one future per submitted pair, in submission order, and
`out` appends `pending.result()` for each future in that same order. -/
def collectResults (f : α → β) (l : List α) (sched : List Nat) : List (Option β) :=
  (List.range l.length).map (runTasks f l sched (fun _ => none))

/-- Sequential branch of the chunk loop (dataset.py lines 211-214):
`audio_process` applied to each pair of the chunk in list order. -/
def seq_branch (E : Externals α) (args : Args) (chunk : List (String × String)) :
    List (Except PyError (String × Payload α) × List String) :=
  chunk.map (audio_process E args)

theorem runTasks_apply (f : α → β) (l : List α) :
    ∀ (sched : List Nat) (s : Nat → Option β) (j : Nat),
      runTasks f l sched s j = if j ∈ sched then (l.get? j).map f else s j := by
  intro sched
  induction sched with
  | nil => intro s j; simp [runTasks]
  | cons i rest ih =>
    intro s j
    simp only [runTasks]
    rw [ih]
    by_cases hr : j ∈ rest
    · simp [hr]
    · by_cases hij : j = i
      · subst hij; simp [hr]
      · simp [hr, hij]

theorem map_range_get (f : α → β) (l : List α) :
    (List.range l.length).map (fun j => (l.get? j).map f) = l.map (fun a => some (f a)) := by
  induction l with
  | nil => simp
  | cons a tl ih =>
    simp only [List.length_cons, List.range_succ_eq_map, List.map_cons, List.map_map,
      Function.comp_def, List.get?_cons_zero, List.get?_cons_succ, Option.map_some]
    exact congrArg (List.cons (some (f a))) ih

/-- C7: within a chunk, the parallel branch collects one result per future
in submission order, so as long as every submitted task is eventually
executed (in whatever order `sched` the pool chooses), the collected result
list equals the sequential branch: `audio_process` applied to each pair of
the chunk in list order. -/
theorem C7_parallel_order {α : Type} (E : Externals α) (args : Args)
    (chunk : List (String × String)) (sched : List Nat)
    (hall : ∀ i, i < chunk.length → i ∈ sched) :
    collectResults (audio_process E args) chunk sched =
      (seq_branch E args chunk).map some := by
  unfold collectResults seq_branch
  rw [List.map_map]
  have hstep : (List.range chunk.length).map
      (runTasks (audio_process E args) chunk sched (fun _ => none)) =
      (List.range chunk.length).map (fun j => (chunk.get? j).map (audio_process E args)) := by
    apply List.map_congr_left
    intro j hj
    have hjlen : j < chunk.length := List.mem_range.mp hj
    rw [runTasks_apply, if_pos (hall j hjlen)]
  rw [hstep, map_range_get]
  simp [Function.comp_def]

/-- C7: witness.  Two pairs executed out of submission order
(`sched = [1, 0]`) still collect into the sequential result list. -/
theorem C7_witness :
    collectResults (audio_process unitExt args0)
        [("a/x1.wav", "b/x1.wav"), ("a/x2.wav", "b/x2.wav")] [1, 0] =
      (seq_branch unitExt args0
        [("a/x1.wav", "b/x1.wav"), ("a/x2.wav", "b/x2.wav")]).map some :=
  C7_parallel_order unitExt args0 _ [1, 0] (by decide)

/-- Shape of a 2-D array modelled as a list of rows: the list of row
lengths (two arrays have equal numpy shape iff these agree). -/
def shape2 (a : List (List Rat)) : List Nat := a.map List.length

/-- Elementwise combination of three equally-shaped lists, truncating to
the shortest (as numpy broadcasting never has to, since the caller asserts
equal shapes). -/
def zipWith3 (f : α → β → γ → δ) : List α → List β → List γ → List δ
  | a :: as, b :: bs, c :: cs => f a b c :: zipWith3 f as bs cs
  | _, _, _ => []

/-- The `_phase_aware_scaling` method (dataset.py lines 61-63): assert the
two phase arrays have equal shape, then return
`clean_spectral_magnitude * np.cos(clean_phase - noise_phase)` elementwise.
The cosine is numpy's and therefore a parameter (`cosf`) of the model;
scalars are the exact rationals standing in for floats. -/
def phase_aware_scaling (cosf : Rat → Rat)
    (clean_spectral_magnitude clean_phase noise_phase : List (List Rat)) :
    Except PyError (List (List Rat)) :=
  if shape2 clean_phase = shape2 noise_phase then
    Except.ok (zipWith3 (fun mr cr nr => zipWith3 (fun m cp np => m * cosf (cp - np)) mr cr nr)
      clean_spectral_magnitude clean_phase noise_phase)
  else Except.error (PyError.assertionError "Shapes must match.")

theorem zipWith3_getD (f : α → β → γ → δ) (da : α) (db : β) (dc : γ) (dd : δ) :
    ∀ (as : List α) (bs : List β) (cs : List γ) (i : Nat),
      i < as.length → i < bs.length → i < cs.length →
      (zipWith3 f as bs cs).getD i dd = f (as.getD i da) (bs.getD i db) (cs.getD i dc) := by
  intro as
  induction as with
  | nil => intro bs cs i ha; simp at ha
  | cons a as' ih =>
    intro bs cs i ha hb hc
    cases bs with
    | nil => simp at hb
    | cons b bs' =>
      cases cs with
      | nil => simp at hc
      | cons c cs' =>
        cases i with
        | zero => simp [zipWith3]
        | succ j =>
          simp only [zipWith3, List.getD_cons_succ]
          exact ih bs' cs' j (by simpa using ha) (by simpa using hb) (by simpa using hc)

/-- C8: `_phase_aware_scaling` on equally-shaped phase arrays returns the
elementwise product of the clean magnitude with the cosine of the phase
difference; on differently-shaped phase arrays it raises the fatal
`"Shapes must match."` assertion; and the default processing path never
invokes it — in fft mode `audio_process` stores the raw `np.abs` of each
spectrogram as the magnitude (the scaling call at dataset.py line 142 is
commented out), alongside that same spectrogram's angle, real and
imaginary parts. -/
theorem C8_phase_scaling {α : Type} (E : Externals α) (args : Args)
    (cleanFile noisyFile : String) (cosf : Rat → Rat)
    (mag cp np2 : List (List Rat)) :
    (shape2 cp = shape2 np2 →
      ∃ r, phase_aware_scaling cosf mag cp np2 = Except.ok r ∧
        ∀ i j, i < mag.length → i < cp.length → i < np2.length →
          j < (mag.getD i []).length → j < (cp.getD i []).length →
          j < (np2.getD i []).length →
          (r.getD i []).getD j 0 =
            (mag.getD i []).getD j 0 *
              cosf ((cp.getD i []).getD j 0 - (np2.getD i []).getD j 0)) ∧
    (shape2 cp ≠ shape2 np2 →
      phase_aware_scaling cosf mag cp np2 =
        Except.error (PyError.assertionError "Shapes must match.")) ∧
    (args.fft = true →
      ∃ noisySpec cleanSpec,
        process_payload E args cleanFile noisyFile =
          Payload.fft (E.absA noisySpec) (E.absA cleanSpec) (E.angle noisySpec)
            (E.angle cleanSpec) (E.re noisySpec) (E.re cleanSpec)
            (E.im noisySpec) (E.im cleanSpec)) := by
  refine ⟨?_, ?_, ?_⟩
  · intro hs
    refine ⟨zipWith3 (fun mr cr nr => zipWith3 (fun m cp np => m * cosf (cp - np)) mr cr nr)
      mag cp np2, by simp [phase_aware_scaling, hs], ?_⟩
    intro i j h1 h2 h3 h4 h5 h6
    rw [zipWith3_getD _ [] [] [] [] mag cp np2 i h1 h2 h3]
    rw [zipWith3_getD _ 0 0 0 0 _ _ _ j h4 h5 h6]
  · intro hs
    simp [phase_aware_scaling, hs]
  · intro hf
    simp only [process_payload, hf, if_true]
    exact ⟨_, _, rfl⟩

/-- C8: witness.  Concrete equal-shape arrays evaluate to the elementwise
formula, the mismatched shapes raise the assertion, and in fft mode the
payload magnitudes are the raw absolute values of the two spectrograms
(here at the trivial externals, with a concrete stand-in for the cosine). -/
theorem C8_witness :
    (∃ r, phase_aware_scaling (fun q => 1 - q * q) [[2, 3]] [[1, 4]] [[1, 2]] =
        Except.ok r ∧
      (r.getD 0 []).getD 1 0 = 3 * (1 - (4 - 2) * (4 - 2))) ∧
    phase_aware_scaling (fun q => 1 - q * q) [[2, 3]] [[1, 4]] [[1]] =
      Except.error (PyError.assertionError "Shapes must match.") ∧
    (∃ noisySpec cleanSpec,
      process_payload unitExt { args0 with fft := true } "a/x.wav" "b/x.wav" =
        Payload.fft (unitExt.absA noisySpec) (unitExt.absA cleanSpec)
          (unitExt.angle noisySpec) (unitExt.angle cleanSpec)
          (unitExt.re noisySpec) (unitExt.re cleanSpec)
          (unitExt.im noisySpec) (unitExt.im cleanSpec)) := by
  obtain ⟨p1, -, p3⟩ := C8_phase_scaling unitExt { args0 with fft := true }
    "a/x.wav" "b/x.wav" (fun q => 1 - q * q) [[2, 3]] [[1, 4]] [[1, 2]]
  obtain ⟨-, q2, -⟩ := C8_phase_scaling unitExt { args0 with fft := true }
    "a/x.wav" "b/x.wav" (fun q => 1 - q * q) [[2, 3]] [[1, 4]] [[1]]
  refine ⟨?_, q2 (by decide), p3 rfl⟩
  obtain ⟨r, hr, helem⟩ := p1 (by decide)
  refine ⟨r, hr, ?_⟩
  have h := helem 0 1 (by decide) (by decide) (by decide) (by decide) (by decide) (by decide)
  simpa using h
